import Mathlib

/-!
Shallow embedding of the Connect Four backend's core game logic
(`internal/models` board engine, `internal/game` session manager,
`internal/bot` strategy, matchmaking queue), with theorems checking the
specification's claims against it.

Go's `PlayerColor` and `GameState` are `int`-based types; they are
modelled as `ℤ`.  Time (`time.Time`) is modelled as an integer number of
seconds; every function that calls `time.Now()` takes an explicit
`now : ℤ` argument.  UUIDs are modelled as `ℕ`.
-/

namespace C4

/-- Go `type PlayerColor int`. -/
abbrev PlayerColor := ℤ

def PlayerRed : PlayerColor := 0
def PlayerYellow : PlayerColor := 1

/-- Go `type GameState int` (`Waiting`, `Playing`, `Finished` by `iota`). -/
abbrev GameState := ℤ

def GameStateWaiting : GameState := 0
def GameStatePlaying : GameState := 1
def GameStateFinished : GameState := 2

/-- The board `[6][7]int`: 6 rows, 7 columns, cell values are Go ints
(0 empty, 1 red, 2 yellow). -/
abbrev Board := Fin 6 → Fin 7 → ℤ

/-- Build a board from a row-major list of rows (for concrete test
positions); missing entries read as 0. -/
def boardOfLists (l : List (List ℤ)) : Board :=
  fun r c => ((l.getD r.val []).getD c.val 0)

/-- The all-empty board. -/
def emptyBoard : Board := fun _ _ => 0

/-- Go `models.Player`. -/
structure Player where
  id : ℕ
  name : String
  color : PlayerColor
  number : ℤ
  isBot : Bool
  connected : Bool
  lastSeen : ℤ
  deriving Repr, DecidableEq

/-- Go `models.Move`. -/
structure Move where
  playerID : ℕ
  column : ℤ
  row : ℤ
  color : PlayerColor
  timestamp : ℤ
  deriving Repr, DecidableEq

/-- Go `models.Game`.  The Go struct holds `Players [2]*Player`; the two
players are modelled as a pair of values owned by the game. -/
structure Game where
  id : ℕ
  state : GameState
  board : Board
  players : Player × Player
  currentTurn : PlayerColor
  currentTurnNumber : ℤ
  winner : Option PlayerColor
  createdAt : ℤ
  finishedAt : Option ℤ
  lastMove : Option Move

/-- The players in Go's array-iteration order (`for _, p := range g.Players`). -/
def Game.playersList (g : Game) : List Player := [g.players.1, g.players.2]

/-- Read `b[row][col]`; the Go code always bounds-checks (explicitly or
by loop ranges) before indexing, so the out-of-bounds branch is never
reached by the embedded code. -/
def boardCell (b : Board) (row col : ℤ) : ℤ :=
  if h : 0 ≤ row ∧ row < 6 ∧ 0 ≤ col ∧ col < 7 then
    b ⟨row.toNat, by omega⟩ ⟨col.toNat, by omega⟩
  else 0

/-- Read `g.Board[row][col]`. -/
def Game.cell (g : Game) (row col : ℤ) : ℤ :=
  boardCell g.board row col

/-- Write `g.Board[row][col] = v` (in-bounds writes only, as in the source). -/
def setCell (b : Board) (row col v : ℤ) : Board :=
  fun r c => if (r.val : ℤ) = row ∧ (c.val : ℤ) = col then v else b r c

/-- Go `(g *Game) IsValidMove(column int) bool`. -/
def Game.IsValidMove (g : Game) (column : ℤ) : Bool :=
  if column < 0 ∨ 7 ≤ column then false
  else g.cell 0 column == 0

/-- Go `(g *Game) MakeMove(column int, color PlayerColor) *Move`; the Go
method mutates the receiver, so the embedding returns the resulting game
next to the returned move (`none` = Go `nil`, receiver unchanged). -/
def Game.MakeMove (g : Game) (column : ℤ) (color : PlayerColor) (now : ℤ) :
    Option Move × Game :=
  if ¬ g.IsValidMove column then (none, g)
  else
    -- row := -1; for r := 5; r >= 0; r-- { if Board[r][column] == 0 { row = r; break } }
    let row : ℤ :=
      match ([5, 4, 3, 2, 1, 0] : List ℤ).find? (fun r => g.cell r column == 0) with
      | some r => r
      | none => -1
    if row = -1 then (none, g)
    else
      let move : Move :=
        { playerID := 0, column := column, row := row, color := color, timestamp := now }
      (some move,
        { g with board := setCell g.board row column (color + 1), lastMove := some move })

/-- Go `(g *Game) checkLine(startRow, startCol, deltaRow, deltaCol, player int) bool`.
`checkLine` reads only the board, so it is defined on boards and wrapped
for games. -/
def checkLineB (b : Board) (startRow startCol deltaRow deltaCol player : ℤ) : Bool :=
  (List.range 4).all fun i =>
    let row := startRow + (i : ℤ) * deltaRow
    let col := startCol + (i : ℤ) * deltaCol
    if row < 0 ∨ 6 ≤ row ∨ col < 0 ∨ 7 ≤ col then false
    else boardCell b row col == player

/-- Go `(g *Game) checkLine(...)`. -/
def Game.checkLine (g : Game) (startRow startCol deltaRow deltaCol player : ℤ) : Bool :=
  checkLineB g.board startRow startCol deltaRow deltaCol player

/-- The body of `CheckWinner`'s double loop at one cell, testing the four
directions in source order. -/
def cellWinnerB (b : Board) (row col : ℤ) : Option PlayerColor :=
  let player := boardCell b row col
  if player = 0 then none
  else if col ≤ 3 ∧ checkLineB b row col 0 1 player then some (player - 1)
  else if row ≤ 2 ∧ checkLineB b row col 1 0 player then some (player - 1)
  else if row ≤ 2 ∧ col ≤ 3 ∧ checkLineB b row col 1 1 player then some (player - 1)
  else if row ≤ 2 ∧ 3 ≤ col ∧ checkLineB b row col 1 (-1) player then some (player - 1)
  else none

/-- The per-cell winner test of `CheckWinner` at one cell of the game. -/
def Game.cellWinner (g : Game) (row col : ℤ) : Option PlayerColor :=
  cellWinnerB g.board row col

/-- The scan order of `CheckWinner`: rows 0..5 ascending, and for each
row, columns 0..6 ascending. -/
def scanCells : List (ℤ × ℤ) :=
  (List.range 6).flatMap fun row => (List.range 7).map fun col => ((row : ℤ), (col : ℤ))

/-- The winner scan as a function of the board alone. -/
def checkWinnerB (b : Board) : Option PlayerColor :=
  scanCells.findSome? fun rc => cellWinnerB b rc.1 rc.2

/-- Go `(g *Game) CheckWinner() *PlayerColor`: reads only the board. -/
def Game.CheckWinner (g : Game) : Option PlayerColor :=
  checkWinnerB g.board

/-- The full-board test as a function of the board alone. -/
def isBoardFullB (b : Board) : Bool :=
  (List.range 7).all fun col => ¬ (boardCell b 0 (col : ℤ) == 0)

/-- Go `(g *Game) IsBoardFull() bool`. -/
def Game.IsBoardFull (g : Game) : Bool :=
  isBoardFullB g.board

/-! ## Session manager (`internal/game/manager.go`) -/

/-- The error values of `internal/game/errors.go`. -/
inductive GameError where
  | GameNotFound
  | GameNotActive
  | PlayerNotInGame
  | NotPlayerTurn
  | InvalidMove
  deriving Repr, DecidableEq

/-- `game.Manager`'s `games` map, as an association list (`uuid → *Game`);
the list order stands for Go's (arbitrary) map iteration order.  The
connection map only feeds `Broadcast`, which the claims treat through the
produced messages, so it is not carried here. -/
structure Manager where
  games : List (ℕ × Game)

/-- Map lookup `m.games[gameID]`. -/
def Manager.lookupGame (m : Manager) (gameID : ℕ) : Option Game :=
  (m.games.find? (fun p => p.1 == gameID)).map Prod.snd

/-- In Go the manager mutates the game through the map's pointer; here the
entry's value is replaced. -/
def Manager.updateGame (m : Manager) (gameID : ℕ) (g : Game) : Manager :=
  ⟨m.games.map fun p => if p.1 == gameID then (p.1, g) else p⟩

/-- The `for _, p := range game.Players` search with `break` on the first
id match in `Manager.MakeMove`. -/
def Game.findPlayer (g : Game) (playerID : ℕ) : Option Player :=
  g.playersList.find? fun p => p.id == playerID

/-- Go `(m *Manager) MakeMove(gameID, playerID uuid.UUID, column int)
(*models.Move, error)`; the mutated manager is returned next to the
result.  The returned `*Move` is the same pointer stored in
`game.LastMove`, so the `move.PlayerID = playerID` write is visible in
the stored game as well. -/
def Manager.MakeMove (m : Manager) (now : ℤ) (gameID playerID : ℕ) (column : ℤ) :
    Except GameError Move × Manager :=
  match m.lookupGame gameID with
  | none => (.error .GameNotFound, m)
  | some game =>
    if game.state ≠ GameStatePlaying then (.error .GameNotActive, m)
    else
      match game.findPlayer playerID with
      | none => (.error .PlayerNotInGame, m)
      | some player =>
        if player.color ≠ game.currentTurn then (.error .NotPlayerTurn, m)
        else
          match game.MakeMove column player.color now with
          | (none, _) => (.error .InvalidMove, m)
          | (some move, g1) =>
            let move := { move with playerID := playerID }
            let g1 := { g1 with lastMove := some move }
            let g2 :=
              match g1.CheckWinner with
              | some w =>
                { g1 with winner := some w, state := GameStateFinished, finishedAt := some now }
              | none =>
                if g1.IsBoardFull then
                  { g1 with state := GameStateFinished, finishedAt := some now }
                else if g1.currentTurn = PlayerRed then
                  { g1 with currentTurn := PlayerYellow, currentTurnNumber := 2 }
                else
                  { g1 with currentTurn := PlayerRed, currentTurnNumber := 1 }
            (.ok move, m.updateGame gameID g2)

/-- `models.GameEndPayload` (the fields the sweep fills). -/
structure GameEndPayload where
  gameID : ℕ
  winner : Option Player
  reason : String
  gameState : Game
  duration : ℤ
  isDraw : Bool

/-- One iteration of `cleanupDisconnectedPlayers`' outer loop on a single
game: Go's grace period is `30 * time.Second`.  Returns the updated game
and the `game_end` broadcast payload, when one is sent. -/
def cleanupGame (now : ℤ) (gameID : ℕ) (g : Game) : Game × Option GameEndPayload :=
  if g.state ≠ GameStatePlaying then (g, none)
  else
    match g.playersList.find? (fun p => ¬ p.connected ∧ now - p.lastSeen > 30) with
    | none => (g, none)
    | some _ =>
      -- game.State = Finished; game.FinishedAt = &now
      -- winner loop: first connected player, if any
      let g1 :=
        { g with state := GameStateFinished, finishedAt := some now,
                 winner := match g.playersList.find? (fun p => p.connected) with
                           | some p => some p.color
                           | none => g.winner }
      (g1, some { gameID := gameID
                  winner := none  -- source: `Winner: nil, // Will be set based on game.Winner`
                  reason := "Player disconnected"
                  gameState := g1
                  duration := 0
                  isDraw := false })

/-- Go `(m *Manager) cleanupDisconnectedPlayers()`: sweep every game,
collecting the broadcast payloads. -/
def Manager.cleanupDisconnectedPlayers (m : Manager) (now : ℤ) :
    Manager × List GameEndPayload :=
  (⟨m.games.map fun p => (p.1, (cleanupGame now p.1 p.2).1)⟩,
   m.games.filterMap fun p => (cleanupGame now p.1 p.2).2)

/-! ## Bot strategy (`internal/bot/bot.go`)

The Go functions take `game *models.Game`; to state what they do to the
pointee, the embedding threads the caller's game through every loop
iteration and returns it next to the chosen column.  Each iteration's
simulation runs on `testGame := *game` (a struct copy — `Board` is an
array value in Go, so the copy shares no board storage; the explicit
`testGame.Board = game.Board` line in the source is a second copy of the
same array).  The simulated move's timestamp is irrelevant (`CheckWinner`
reads only the board), so the embedding passes 0 for `time.Now()`. -/

/-- The `for col := 0; col < 7; col++` loop of `findWinningMove`. -/
def findWinningMoveAux (color : PlayerColor) : List ℕ → Game → ℤ × Game
  | [], g => (-1, g)
  | col :: rest, g =>
    if ¬ g.IsValidMove (col : ℤ) then findWinningMoveAux color rest g
    else
      let testGame : Game := { g with board := g.board }
      match testGame.MakeMove (col : ℤ) color 0 with
      | (none, _) => findWinningMoveAux color rest g
      | (some _, tg) =>
        match tg.CheckWinner with
        | some w => if w = color then ((col : ℤ), g) else findWinningMoveAux color rest g
        | none => findWinningMoveAux color rest g

/-- Go `findWinningMove(game *models.Game, color models.PlayerColor) int`. -/
def findWinningMove (g : Game) (color : PlayerColor) : ℤ × Game :=
  findWinningMoveAux color (List.range 7) g

/-- The fixed center-preference order of `GetBestMove`. -/
def centerColumns : List ℕ := [3, 2, 4, 1, 5, 0, 6]

/-- `opponentColor := models.PlayerRed; if botColor == models.PlayerRed
{ opponentColor = models.PlayerYellow }`. -/
def opponentOf (botColor : PlayerColor) : PlayerColor :=
  if botColor = PlayerRed then PlayerYellow else PlayerRed

/-- Go `GetBestMove(game *models.Game, botColor models.PlayerColor) int`.
In the final fallback the source picks `validMoves[rand.Intn(len)]`;
the embedding takes the first element.  That branch is unreachable:
`centerColumns` lists all seven columns, so when the center scan finds
no valid column, `validMoves` is empty (`getBestMove_fallback_unreachable`)
and both source and embedding return -1. -/
def GetBestMove (g : Game) (botColor : PlayerColor) : ℤ × Game :=
  match findWinningMove g botColor with
  | (mv, g) =>
    if mv ≠ -1 then (mv, g)
    else
      match findWinningMove g (opponentOf botColor) with
      | (mv, g) =>
        if mv ≠ -1 then (mv, g)
        else
          match centerColumns.find? (fun col : ℕ => g.IsValidMove (col : ℤ)) with
          | some col => ((col : ℤ), g)
          | none =>
            let validMoves := (List.range 7).filter fun col : ℕ => g.IsValidMove (col : ℤ)
            if 0 < validMoves.length then (((validMoves.headD 0 : ℕ) : ℤ), g) else (-1, g)

/-- Placing `color` in `col` is simulated (on a copy) and wins for
`color`: the predicate `findWinningMove`'s loop tests. -/
def simWins (g : Game) (color : PlayerColor) (col : ℕ) : Bool :=
  g.IsValidMove (col : ℤ) && ((g.MakeMove (col : ℤ) color 0).2.CheckWinner == some color)

/-! ## Matchmaking queue (`internal/matchmaking/service.go` +
`Queue` in `internal/kafka`) -/

/-- `MatchPreferences`. -/
structure MatchPreferences where
  allowBots : Bool
  skillLevel : ℤ
  maxWaitTime : ℤ
  deriving Repr, DecidableEq

/-- `QueueEntry` (the fields matching reads). -/
structure QueueEntry where
  playerID : ℕ
  username : String
  joinedAt : ℤ
  preferences : MatchPreferences
  deriving Repr, DecidableEq

/-- The queue's `entries` map; the list order stands for Go's (arbitrary)
map iteration order. -/
abbrev Queue := List QueueEntry

/-- Go `(q *Queue) areCompatible(player1, player2 *QueueEntry) bool`:
skill difference of more than 2 levels is rejected, everything else
is accepted. -/
def areCompatible (player1 player2 : QueueEntry) : Bool :=
  ¬ (|player1.preferences.skillLevel - player2.preferences.skillLevel| > 2)

/-- Go `(q *Queue) GetCompatibleMatch(entry *QueueEntry) *QueueEntry`:
first candidate in map-iteration order with a different id that is
compatible. -/
def GetCompatibleMatch (q : Queue) (entry : QueueEntry) : Option QueueEntry :=
  q.find? fun candidate => candidate.playerID ≠ entry.playerID && areCompatible entry candidate

/-- `delete(q.entries, playerID)`. -/
def removeEntry (q : Queue) (playerID : ℕ) : Queue :=
  q.filter fun e => e.playerID ≠ playerID

/-- The loop of `MatchmakingService.processMatches` over the
`GetAllEntries` snapshot: skip entries no longer present, pair the rest
with `GetCompatibleMatch`, removing both members of each created match
(`createPlayerMatch`).  Returns the matches made and the final queue. -/
def processMatchesAux : List QueueEntry → Queue → List (QueueEntry × QueueEntry) × Queue
  | [], q => ([], q)
  | e :: rest, q =>
    if (q.find? fun x => x.playerID == e.playerID).isSome then
      match GetCompatibleMatch q e with
      | some c =>
        let q1 := removeEntry (removeEntry q e.playerID) c.playerID
        let (ms, qf) := processMatchesAux rest q1
        ((e, c) :: ms, qf)
      | none => processMatchesAux rest q
    else processMatchesAux rest q

/-- Go `(s *MatchmakingService) processMatches()`: the `GetAllEntries`
snapshot is the queue in its iteration order. -/
def processMatches (q : Queue) : List (QueueEntry × QueueEntry) × Queue :=
  processMatchesAux q q

/-! ## Basic board lemmas -/

lemma isValidMove_iff (g : Game) (column : ℤ) :
    g.IsValidMove column = true ↔ 0 ≤ column ∧ column < 7 ∧ g.cell 0 column = 0 := by
  unfold Game.IsValidMove
  split
  · constructor
    · intro h; cases h
    · intro ⟨h1, h2, _⟩; omega
  · rename_i h
    push_neg at h
    simp only [beq_iff_eq]
    exact ⟨fun hc => ⟨h.1, h.2, hc⟩, fun hc => hc.2.2⟩

lemma boardCell_setCell (b : Board) (row col v r c : ℤ)
    (hb : 0 ≤ r ∧ r < 6 ∧ 0 ≤ c ∧ c < 7) :
    boardCell (setCell b row col v) r c =
      if r = row ∧ c = col then v else boardCell b r c := by
  unfold boardCell setCell
  rw [dif_pos hb, dif_pos hb]
  dsimp only
  rw [Int.toNat_of_nonneg hb.1, Int.toNat_of_nonneg hb.2.2.1]

lemma boardCell_oob (b : Board) (r c : ℤ) (h : ¬ (0 ≤ r ∧ r < 6 ∧ 0 ≤ c ∧ c < 7)) :
    boardCell b r c = 0 := by
  unfold boardCell
  rw [dif_neg h]

lemma findRow_spec (g : Game) (column : ℤ) (h : g.cell 0 column = 0) :
    ∃ r, ([5, 4, 3, 2, 1, 0] : List ℤ).find? (fun r => g.cell r column == 0) = some r ∧
      0 ≤ r ∧ r < 6 ∧ g.cell r column = 0 ∧
      ∀ r', r < r' → r' < 6 → g.cell r' column ≠ 0 := by
  by_cases h5 : g.cell 5 column = 0
  · exact ⟨5, by simp [List.find?, h5], by norm_num, by norm_num, h5,
      fun r' h1 h2 => by omega⟩
  · have e5 : (g.cell 5 column == 0) = false := by simp [h5]
    by_cases h4 : g.cell 4 column = 0
    · exact ⟨4, by simp [List.find?, e5, h4], by norm_num, by norm_num, h4,
        fun r' h1 h2 => by interval_cases r'; assumption⟩
    · have e4 : (g.cell 4 column == 0) = false := by simp [h4]
      by_cases h3 : g.cell 3 column = 0
      · exact ⟨3, by simp [List.find?, e5, e4, h3], by norm_num, by norm_num, h3,
          fun r' h1 h2 => by interval_cases r' <;> assumption⟩
      · have e3 : (g.cell 3 column == 0) = false := by simp [h3]
        by_cases h2 : g.cell 2 column = 0
        · exact ⟨2, by simp [List.find?, e5, e4, e3, h2], by norm_num, by norm_num, h2,
            fun r' ha hb => by interval_cases r' <;> assumption⟩
        · have e2 : (g.cell 2 column == 0) = false := by simp [h2]
          by_cases h1 : g.cell 1 column = 0
          · exact ⟨1, by simp [List.find?, e5, e4, e3, e2, h1], by norm_num, by norm_num, h1,
              fun r' ha hb => by interval_cases r' <;> assumption⟩
          · have e1 : (g.cell 1 column == 0) = false := by simp [h1]
            exact ⟨0, by simp [List.find?, e5, e4, e3, e2, e1, h], by norm_num, by norm_num, h,
              fun r' ha hb => by interval_cases r' <;> assumption⟩

lemma makeMove_fail (g : Game) (column : ℤ) (color : PlayerColor) (now : ℤ)
    (hv : ¬ g.IsValidMove column = true) :
    g.MakeMove column color now = (none, g) := by
  unfold Game.MakeMove
  rw [if_pos hv]

lemma makeMove_success (g : Game) (column : ℤ) (color : PlayerColor) (now : ℤ)
    (hv : g.IsValidMove column = true) :
    ∃ r, 0 ≤ r ∧ r < 6 ∧ g.cell r column = 0 ∧
      (∀ r', r < r' → r' < 6 → g.cell r' column ≠ 0) ∧
      g.MakeMove column color now =
        (some { playerID := 0, column := column, row := r, color := color, timestamp := now },
         { g with
            board := setCell g.board r column (color + 1),
            lastMove :=
              some { playerID := 0, column := column, row := r, color := color,
                     timestamp := now } }) := by
  obtain ⟨h0, h7, htop⟩ := (isValidMove_iff g column).mp hv
  obtain ⟨r, hfind, hr0, hr6, hcell, habove⟩ := findRow_spec g column htop
  refine ⟨r, hr0, hr6, hcell, habove, ?_⟩
  unfold Game.MakeMove
  rw [if_neg (by simp [hv])]
  simp only [hfind]
  rw [if_neg (by omega)]

/-! ## Concrete fixtures for witnesses -/

/-- A red human player. -/
def demoRed : Player :=
  { id := 1, name := "alice", color := PlayerRed, number := 1, isBot := false,
    connected := true, lastSeen := 0 }

/-- A yellow human player. -/
def demoYellow : Player :=
  { id := 2, name := "bob", color := PlayerYellow, number := 2, isBot := false,
    connected := true, lastSeen := 0 }

/-- A fresh Playing game on the empty board, red to move. -/
def demoGame : Game :=
  { id := 10, state := GameStatePlaying, board := emptyBoard,
    players := (demoRed, demoYellow), currentTurn := PlayerRed,
    currentTurnNumber := 1, winner := none, createdAt := 0, finishedAt := none,
    lastMove := none }

/-- C3: the board-level move is accepted exactly when 0 ≤ column < 7 and
the topmost cell of that column is empty; when accepted it fills the
lowest empty row of that column (rows scanned from the bottom upward)
with the color and exactly one board cell changes; when the column is
full or out of range it fails (returns nil) and no cell changes. -/
theorem makeMove_board_contract (g : Game) (column : ℤ) (color : PlayerColor) (now : ℤ)
    (hcolor : color = PlayerRed ∨ color = PlayerYellow) :
    ((g.MakeMove column color now).1.isSome = true ↔
      0 ≤ column ∧ column < 7 ∧ g.cell 0 column = 0) ∧
    (∀ mv g', g.MakeMove column color now = (some mv, g') →
      mv.column = column ∧ mv.color = color ∧ 0 ≤ mv.row ∧ mv.row < 6 ∧
      g.cell mv.row column = 0 ∧
      (∀ r, mv.row < r → r < 6 → g.cell r column ≠ 0) ∧
      g'.cell mv.row column = color + 1 ∧ g'.cell mv.row column ≠ 0 ∧
      (∀ r c, ¬ (r = mv.row ∧ c = column) → g'.cell r c = g.cell r c)) ∧
    ((g.MakeMove column color now).1 = none → (g.MakeMove column color now).2 = g) := by
  by_cases hv : g.IsValidMove column = true
  · obtain ⟨r, hr0, hr6, hcell, habove, hEq⟩ := makeMove_success g column color now hv
    obtain ⟨hc0, hc7, htop⟩ := (isValidMove_iff g column).mp hv
    refine ⟨?_, ?_, ?_⟩
    · rw [hEq]
      simp only [Option.isSome_some, true_iff]
      exact ⟨hc0, hc7, htop⟩
    · intro mv g' hmg
      rw [hEq] at hmg
      injection hmg with h1 h2
      injection h1 with h1
      subst h1
      subst h2
      refine ⟨rfl, rfl, hr0, hr6, hcell, habove, ?_, ?_, ?_⟩
      · show boardCell (setCell g.board r column (color + 1)) r column = color + 1
        rw [boardCell_setCell _ _ _ _ _ _ ⟨hr0, hr6, hc0, hc7⟩]
        simp
      · show boardCell (setCell g.board r column (color + 1)) r column ≠ 0
        rw [boardCell_setCell _ _ _ _ _ _ ⟨hr0, hr6, hc0, hc7⟩]
        rcases hcolor with h | h <;> subst h <;> simp [PlayerRed, PlayerYellow]
      · intro rr cc hne
        by_cases hb : 0 ≤ rr ∧ rr < 6 ∧ 0 ≤ cc ∧ cc < 7
        · show boardCell (setCell g.board r column (color + 1)) rr cc = g.cell rr cc
          rw [boardCell_setCell _ _ _ _ _ _ hb, if_neg hne]
          rfl
        · show boardCell (setCell g.board r column (color + 1)) rr cc = g.cell rr cc
          rw [boardCell_oob _ _ _ hb]
          exact (boardCell_oob _ _ _ hb).symm
    · intro hnone
      rw [hEq] at hnone
      simp at hnone
  · have hfail := makeMove_fail g column color now hv
    refine ⟨?_, ?_, ?_⟩
    · rw [hfail]
      simp only [Option.isSome_none, Bool.false_eq_true, false_iff]
      intro hc
      exact hv ((isValidMove_iff g column).mpr hc)
    · intro mv g' hmg
      rw [hfail] at hmg
      exact absurd (congrArg Prod.fst hmg) (by simp)
    · intro _
      rw [hfail]

/-- Witness for C3 at the fresh game, column 3, red. -/
theorem makeMove_board_contract_witness :
    (PlayerRed = PlayerRed ∨ PlayerRed = PlayerYellow) ∧
    ((demoGame.MakeMove 3 PlayerRed 0).1.isSome = true ↔
      0 ≤ (3 : ℤ) ∧ (3 : ℤ) < 7 ∧ demoGame.cell 0 3 = 0) :=
  ⟨Or.inl rfl, (makeMove_board_contract demoGame 3 PlayerRed 0 (Or.inl rfl)).1⟩

/-! ## C5: the winner scan matches its spec wording -/

/-- Spec-worded line test for the refinement claim C5: 4 consecutive
same-colored in-bounds cells starting at `(row, col)` along `(dr, dc)`. -/
def specLine (g : Game) (row col dr dc : ℤ) : Bool :=
  (List.range 4).all fun i =>
    decide (0 ≤ row + (i : ℤ) * dr ∧ row + (i : ℤ) * dr < 6 ∧
            0 ≤ col + (i : ℤ) * dc ∧ col + (i : ℤ) * dc < 7) &&
    (g.cell (row + (i : ℤ) * dr) (col + (i : ℤ) * dc) == g.cell row col)

/-- Spec-worded per-cell test: for an occupied cell try the directions
horizontal-right, vertical-down, diagonal down-right, diagonal down-left,
in that order. -/
def specCellWinner (g : Game) (row col : ℤ) : Option PlayerColor :=
  if g.cell row col = 0 then none
  else if specLine g row col 0 1 then some (g.cell row col - 1)
  else if specLine g row col 1 0 then some (g.cell row col - 1)
  else if specLine g row col 1 1 then some (g.cell row col - 1)
  else if specLine g row col 1 (-1) then some (g.cell row col - 1)
  else none

/-- Spec-worded winner scan (claim C5's wording): cells in ascending row
order then ascending column order, first match wins. -/
def CheckWinnerSpec (g : Game) : Option PlayerColor :=
  scanCells.findSome? fun rc => specCellWinner g rc.1 rc.2

lemma boardCell_eq_cell (g : Game) (r c : ℤ) : boardCell g.board r c = g.cell r c := rfl

lemma checkLineB_eq_checkLine (g : Game) (a b c d e : ℤ) :
    checkLineB g.board a b c d e = g.checkLine a b c d e := rfl

lemma checkLine_eq_specLine (g : Game) (row col dr dc : ℤ) :
    g.checkLine row col dr dc (g.cell row col) = specLine g row col dr dc := by
  unfold Game.checkLine checkLineB specLine
  congr 1
  funext i
  dsimp only
  by_cases hb : 0 ≤ row + (i : ℤ) * dr ∧ row + (i : ℤ) * dr < 6 ∧
      0 ≤ col + (i : ℤ) * dc ∧ col + (i : ℤ) * dc < 7
  · rw [if_neg (by omega), decide_eq_true hb, Bool.true_and, boardCell_eq_cell]
  · rw [if_pos (by omega), decide_eq_false hb, Bool.false_and]

lemma specLine_bound (g : Game) (row col dr dc : ℤ)
    (h : specLine g row col dr dc = true) :
    0 ≤ row + 3 * dr ∧ row + 3 * dr < 6 ∧ 0 ≤ col + 3 * dc ∧ col + 3 * dc < 7 := by
  unfold specLine at h
  rw [List.all_eq_true] at h
  have h3 := h 3 (by norm_num)
  rw [Bool.and_eq_true, decide_eq_true_eq] at h3
  exact_mod_cast h3.1

lemma cellWinner_eq_spec (g : Game) (row col : ℤ) :
    g.cellWinner row col = specCellWinner g row col := by
  unfold Game.cellWinner cellWinnerB specCellWinner
  dsimp only
  simp only [boardCell_eq_cell, checkLineB_eq_checkLine]
  by_cases h0 : g.cell row col = 0
  · rw [if_pos h0, if_pos h0]
  · rw [if_neg h0, if_neg h0]
    have e1 : (col ≤ 3 ∧ g.checkLine row col 0 1 (g.cell row col) = true) ↔
        specLine g row col 0 1 = true := by
      rw [checkLine_eq_specLine]
      exact ⟨fun h => h.2, fun h => ⟨by have := specLine_bound g row col 0 1 h; omega, h⟩⟩
    have e2 : (row ≤ 2 ∧ g.checkLine row col 1 0 (g.cell row col) = true) ↔
        specLine g row col 1 0 = true := by
      rw [checkLine_eq_specLine]
      exact ⟨fun h => h.2, fun h => ⟨by have := specLine_bound g row col 1 0 h; omega, h⟩⟩
    have e3 : (row ≤ 2 ∧ col ≤ 3 ∧ g.checkLine row col 1 1 (g.cell row col) = true) ↔
        specLine g row col 1 1 = true := by
      rw [checkLine_eq_specLine]
      exact ⟨fun h => h.2.2, fun h => ⟨by have := specLine_bound g row col 1 1 h; omega,
        by have := specLine_bound g row col 1 1 h; omega, h⟩⟩
    have e4 : (row ≤ 2 ∧ 3 ≤ col ∧ g.checkLine row col 1 (-1) (g.cell row col) = true) ↔
        specLine g row col 1 (-1) = true := by
      rw [checkLine_eq_specLine]
      exact ⟨fun h => h.2.2, fun h => ⟨by have := specLine_bound g row col 1 (-1) h; omega,
        by have := specLine_bound g row col 1 (-1) h; omega, h⟩⟩
    exact if_congr e1 rfl (if_congr e2 rfl (if_congr e3 rfl (if_congr e4 rfl rfl)))

/-- C5: `CheckWinner` scans cells in ascending row order then ascending
column order, testing for each occupied cell the directions
horizontal-right, vertical-down, diagonal down-right, diagonal down-left,
each requiring 4 consecutive same-colored in-bounds cells, and returns
the first matching color under this exact scan and direction order, or
none when no line of four exists. -/
theorem checkWinner_eq_spec (g : Game) : g.CheckWinner = CheckWinnerSpec g := by
  unfold Game.CheckWinner checkWinnerB CheckWinnerSpec
  congr 1
  funext rc
  exact cellWinner_eq_spec g rc.1 rc.2

/-! ## Bot strategy lemmas (claims C7, C10) -/

lemma findWinningMoveAux_frame (color : PlayerColor) :
    ∀ cols (g : Game), (findWinningMoveAux color cols g).2 = g := by
  intro cols
  induction cols with
  | nil => intro g; rfl
  | cons col rest ih =>
    intro g
    rw [findWinningMoveAux]
    split
    · exact ih g
    · dsimp only
      split
      · exact ih g
      · split
        · split
          · rfl
          · exact ih g
        · exact ih g

lemma findWinningMove_frame (g : Game) (color : PlayerColor) :
    (findWinningMove g color).2 = g :=
  findWinningMoveAux_frame color (List.range 7) g

lemma findWinningMove_eta (g : Game) (color : PlayerColor) :
    findWinningMove g color = ((findWinningMove g color).1, g) :=
  Prod.ext rfl (findWinningMove_frame g color)

lemma findWinningMoveAux_fst (color : PlayerColor) :
    ∀ cols (g : Game), (findWinningMoveAux color cols g).1 =
      match cols.find? (simWins g color) with
      | some c => (c : ℤ)
      | none => -1 := by
  intro cols
  induction cols with
  | nil => intro g; rfl
  | cons col rest ih =>
    intro g
    rw [findWinningMoveAux]
    by_cases hv : g.IsValidMove (col : ℤ) = true
    · rw [if_neg (by simp [hv])]
      dsimp only
      obtain ⟨r, _, _, _, _, hEq⟩ := makeMove_success g (col : ℤ) color 0 hv
      have hEq' : (Game.MakeMove { g with board := g.board } (col : ℤ) color 0) =
          (some { playerID := 0, column := (col : ℤ), row := r, color := color,
                  timestamp := 0 },
           { g with
              board := setCell g.board r (col : ℤ) (color + 1),
              lastMove := some { playerID := 0, column := (col : ℤ), row := r,
                                 color := color, timestamp := 0 } }) := hEq
      rw [hEq']
      dsimp only
      have hsim : simWins g color col =
          (({ g with
              board := setCell g.board r (col : ℤ) (color + 1),
              lastMove := some { playerID := 0, column := (col : ℤ), row := r,
                                 color := color, timestamp := 0 } } : Game).CheckWinner
            == some color) := by
        unfold simWins
        rw [hv, Bool.true_and, hEq]
      rcases hw : ({ g with
          board := setCell g.board r (col : ℤ) (color + 1),
          lastMove := some { playerID := 0, column := (col : ℤ), row := r,
                             color := color, timestamp := 0 } } : Game).CheckWinner with
        _ | w
      · rw [hw] at hsim
        dsimp only
        have hfalse : simWins g color col = false := by rw [hsim]; rfl
        rw [List.find?_cons_of_neg _ (by simp [hfalse])]
        exact ih g
      · rw [hw] at hsim
        dsimp only
        by_cases hwc : w = color
        · rw [if_pos hwc]
          have htrue : simWins g color col = true := by
            rw [hsim]
            simp [hwc]
          rw [List.find?_cons_of_pos _ htrue]
        · rw [if_neg hwc]
          have hfalse : simWins g color col = false := by
            rw [hsim]
            simp [hwc]
          rw [List.find?_cons_of_neg _ (by simp [hfalse])]
          exact ih g
    · rw [if_pos hv]
      have hfalse : simWins g color col = false := by
        unfold simWins
        rw [Bool.eq_false_iff]
        intro hc
        exact hv (Bool.and_elim_left hc)
      rw [List.find?_cons_of_neg _ (by simp [hfalse])]
      exact ih g

lemma findWinningMove_fst (g : Game) (color : PlayerColor) :
    (findWinningMove g color).1 =
      match (List.range 7).find? (simWins g color) with
      | some c => (c : ℤ)
      | none => -1 :=
  findWinningMoveAux_fst color (List.range 7) g

lemma getBestMove_fallback_unreachable (g : Game)
    (hcen : centerColumns.find? (fun col : ℕ => g.IsValidMove (col : ℤ)) = none) :
    (List.range 7).filter (fun col : ℕ => g.IsValidMove (col : ℤ)) = [] := by
  have hall := List.find?_eq_none.mp hcen
  rw [List.filter_eq_nil_iff]
  intro col hcol
  rw [List.mem_range] at hcol
  intro hvalid
  interval_cases col <;>
    exact absurd hvalid (by simpa using hall _ (by decide))

lemma getBestMove_frame (g : Game) (botColor : PlayerColor) :
    (GetBestMove g botColor).2 = g := by
  unfold GetBestMove
  rw [findWinningMove_eta g botColor]
  dsimp only
  split
  · rfl
  · rw [findWinningMove_eta g (opponentOf botColor)]
    dsimp only
    split
    · rfl
    · split
      · rfl
      · split
        · rfl
        · rfl

lemma getBestMove_fst (g : Game) (botColor : PlayerColor) :
    (GetBestMove g botColor).1 =
      match (List.range 7).find? (simWins g botColor) with
      | some c => (c : ℤ)
      | none =>
        match (List.range 7).find? (simWins g (opponentOf botColor)) with
        | some c => (c : ℤ)
        | none =>
          match centerColumns.find? (fun col : ℕ => g.IsValidMove (col : ℤ)) with
          | some col => (col : ℤ)
          | none => -1 := by
  unfold GetBestMove
  rw [findWinningMove_eta g botColor]
  dsimp only
  rcases hb : (List.range 7).find? (simWins g botColor) with _ | c
  · have h1 : (findWinningMove g botColor).1 = -1 := by
      rw [findWinningMove_fst, hb]
    rw [h1, if_neg (by norm_num)]
    rw [findWinningMove_eta g (opponentOf botColor)]
    dsimp only
    rcases ho : (List.range 7).find? (simWins g (opponentOf botColor)) with _ | c
    · have h2 : (findWinningMove g (opponentOf botColor)).1 = -1 := by
        rw [findWinningMove_fst, ho]
      rw [h2, if_neg (by norm_num)]
      rcases hc : centerColumns.find? (fun col : ℕ => g.IsValidMove (col : ℤ)) with _ | col
      · dsimp only
        rw [getBestMove_fallback_unreachable g hc]
        norm_num
      · rfl
    · have h2 : (findWinningMove g (opponentOf botColor)).1 = (c : ℤ) := by
        rw [findWinningMove_fst, ho]
      rw [h2, if_pos (by omega)]
  · have h1 : (findWinningMove g botColor).1 = (c : ℤ) := by
      rw [findWinningMove_fst, hb]
    rw [h1, if_pos (by omega)]

lemma find?_range7_eq (p : ℕ → Bool) (c : ℕ) (hc : c < 7) (hp : p c = true)
    (hmin : ∀ c', c' < c → p c' = false) : (List.range 7).find? p = some c := by
  have h7 : (List.range 7) = [0, 1, 2, 3, 4, 5, 6] := rfl
  rw [h7]
  interval_cases c
  · rw [List.find?_cons_of_pos _ hp]
  · rw [List.find?_cons_of_neg _ (by simp [hmin 0 (by norm_num)]),
      List.find?_cons_of_pos _ hp]
  · rw [List.find?_cons_of_neg _ (by simp [hmin 0 (by norm_num)]),
      List.find?_cons_of_neg _ (by simp [hmin 1 (by norm_num)]),
      List.find?_cons_of_pos _ hp]
  · rw [List.find?_cons_of_neg _ (by simp [hmin 0 (by norm_num)]),
      List.find?_cons_of_neg _ (by simp [hmin 1 (by norm_num)]),
      List.find?_cons_of_neg _ (by simp [hmin 2 (by norm_num)]),
      List.find?_cons_of_pos _ hp]
  · rw [List.find?_cons_of_neg _ (by simp [hmin 0 (by norm_num)]),
      List.find?_cons_of_neg _ (by simp [hmin 1 (by norm_num)]),
      List.find?_cons_of_neg _ (by simp [hmin 2 (by norm_num)]),
      List.find?_cons_of_neg _ (by simp [hmin 3 (by norm_num)]),
      List.find?_cons_of_pos _ hp]
  · rw [List.find?_cons_of_neg _ (by simp [hmin 0 (by norm_num)]),
      List.find?_cons_of_neg _ (by simp [hmin 1 (by norm_num)]),
      List.find?_cons_of_neg _ (by simp [hmin 2 (by norm_num)]),
      List.find?_cons_of_neg _ (by simp [hmin 3 (by norm_num)]),
      List.find?_cons_of_neg _ (by simp [hmin 4 (by norm_num)]),
      List.find?_cons_of_pos _ hp]
  · rw [List.find?_cons_of_neg _ (by simp [hmin 0 (by norm_num)]),
      List.find?_cons_of_neg _ (by simp [hmin 1 (by norm_num)]),
      List.find?_cons_of_neg _ (by simp [hmin 2 (by norm_num)]),
      List.find?_cons_of_neg _ (by simp [hmin 3 (by norm_num)]),
      List.find?_cons_of_neg _ (by simp [hmin 4 (by norm_num)]),
      List.find?_cons_of_neg _ (by simp [hmin 5 (by norm_num)]),
      List.find?_cons_of_pos _ hp]

lemma find?_range7_none (p : ℕ → Bool) (h : ∀ c, c < 7 → p c = false) :
    (List.range 7).find? p = none := by
  rw [List.find?_eq_none]
  intro x hx
  rw [List.mem_range] at hx
  simp [h x hx]

/-- C7: with no current winner, the bot plays, in strict priority order,
the lowest column whose simulated own placement wins; else the lowest
column whose simulated opponent placement would win (the block); else the
first valid column in the fixed order [3, 2, 4, 1, 5, 0, 6]. -/
theorem getBestMove_priority (g : Game) (botColor : PlayerColor)
    (_hnw : g.CheckWinner = none) :
    (∀ c : ℕ, c < 7 → simWins g botColor c = true →
      (∀ c', c' < c → simWins g botColor c' = false) →
      (GetBestMove g botColor).1 = (c : ℤ)) ∧
    ((∀ c, c < 7 → simWins g botColor c = false) →
      ∀ c : ℕ, c < 7 → simWins g (opponentOf botColor) c = true →
      (∀ c', c' < c → simWins g (opponentOf botColor) c' = false) →
      (GetBestMove g botColor).1 = (c : ℤ)) ∧
    ((∀ c, c < 7 → simWins g botColor c = false) →
      (∀ c, c < 7 → simWins g (opponentOf botColor) c = false) →
      ∀ col : ℕ, centerColumns.find? (fun col : ℕ => g.IsValidMove (col : ℤ)) = some col →
      (GetBestMove g botColor).1 = (col : ℤ)) := by
  refine ⟨?_, ?_, ?_⟩
  · intro c hc hw hmin
    rw [getBestMove_fst, find?_range7_eq _ c hc hw hmin]
  · intro hno c hc hw hmin
    rw [getBestMove_fst, find?_range7_none _ hno, find?_range7_eq _ c hc hw hmin]
  · intro hno1 hno2 col hcol
    rw [getBestMove_fst, find?_range7_none _ hno1, find?_range7_none _ hno2, hcol]

/-- The spec's block scenario: yellow has three in a row in column 4 and
red (the bot) has no winning move. -/
def scenarioBoard : Board := boardOfLists
  [[0, 0, 0, 0, 0, 0, 0],
   [0, 0, 0, 0, 0, 0, 0],
   [0, 0, 0, 0, 0, 0, 0],
   [0, 0, 0, 0, 2, 0, 0],
   [0, 0, 0, 0, 2, 0, 0],
   [1, 1, 0, 0, 2, 0, 0]]

/-- The block scenario as a game with red (the bot) to move. -/
def scenarioGame : Game := { demoGame with board := scenarioBoard }

/-- Witness for C7: in the spec's block scenario the bot selects column 4. -/
theorem getBestMove_priority_witness :
    scenarioGame.CheckWinner = none ∧ (GetBestMove scenarioGame PlayerRed).1 = (4 : ℤ) :=
  ⟨by decide, (getBestMove_priority scenarioGame PlayerRed (by decide)).2.1
    (by decide) 4 (by decide) (by decide) (by decide)⟩

/-- C10: computing the bot's move never mutates the game it is given:
the board, current turn, state, winner, and last-move fields of the
input game are identical after `GetBestMove`, because the win/block
simulations run on a copy. -/
theorem getBestMove_no_mutation (g : Game) (botColor : PlayerColor) :
    (GetBestMove g botColor).2 = g ∧
    (GetBestMove g botColor).2.board = g.board ∧
    (GetBestMove g botColor).2.currentTurn = g.currentTurn ∧
    (GetBestMove g botColor).2.state = g.state ∧
    (GetBestMove g botColor).2.winner = g.winner ∧
    (GetBestMove g botColor).2.lastMove = g.lastMove := by
  have h := getBestMove_frame g botColor
  exact ⟨h, by rw [h], by rw [h], by rw [h], by rw [h], by rw [h]⟩


/-! ## Session manager lemmas (claims C2, C4) -/

lemma findPlayer_none_iff (g : Game) (pid : ℕ) :
    g.findPlayer pid = none ↔ g.players.1.id ≠ pid ∧ g.players.2.id ≠ pid := by
  unfold Game.findPlayer Game.playersList
  by_cases h1 : g.players.1.id = pid
  · have e1 : (g.players.1.id == pid) = true := by simp [h1]
    simp [List.find?, e1, h1]
  · have e1 : (g.players.1.id == pid) = false := by simp [h1]
    by_cases h2 : g.players.2.id = pid
    · have e2 : (g.players.2.id == pid) = true := by simp [h2]
      simp [List.find?, e1, e2, h1, h2]
    · have e2 : (g.players.2.id == pid) = false := by simp [h2]
      simp [List.find?, e1, e2, h1, h2]

lemma lookupGame_update_self (m : Manager) (gid : ℕ) (g2 : Game)
    (h : (m.lookupGame gid).isSome = true) :
    (m.updateGame gid g2).lookupGame gid = some g2 := by
  rcases m with ⟨l⟩
  unfold Manager.lookupGame at h ⊢
  unfold Manager.updateGame
  dsimp only at h ⊢
  induction l with
  | nil => simp at h
  | cons hd tl ih =>
    by_cases hb : hd.1 = gid
    · have e : (hd.1 == gid) = true := by simp [hb]
      simp only [List.map_cons]
      rw [if_pos e]
      rw [List.find?_cons_of_pos _ (by exact e)]
      rfl
    · have e : (hd.1 == gid) = false := by simp [hb]
      simp only [List.map_cons]
      rw [if_neg (by simp [e])]
      rw [List.find?_cons_of_neg _ (by simp [e])]
      apply ih
      rw [List.find?_cons_of_neg _ (by simp [e])] at h
      exact h


/-- C2: MakeMove fails with SessionNotFound exactly when the session id is
unknown; SessionNotActive exactly when the session exists but is not
Playing; PlayerNotInSession exactly when the player id is neither of the
two players; NotPlayersTurn exactly when the found player's color differs
from the current turn; InvalidMove exactly when the board-level placement
is rejected; and every failure leaves the manager unchanged. -/
theorem managerMakeMove_error_contract (m : Manager) (now : ℤ) (gid pid : ℕ) (col : ℤ) :
    ((m.MakeMove now gid pid col).1 = .error .GameNotFound ↔ m.lookupGame gid = none) ∧
    ((m.MakeMove now gid pid col).1 = .error .GameNotActive ↔
      ∃ g, m.lookupGame gid = some g ∧ g.state ≠ GameStatePlaying) ∧
    ((m.MakeMove now gid pid col).1 = .error .PlayerNotInGame ↔
      ∃ g, m.lookupGame gid = some g ∧ g.state = GameStatePlaying ∧
        g.players.1.id ≠ pid ∧ g.players.2.id ≠ pid) ∧
    ((m.MakeMove now gid pid col).1 = .error .NotPlayerTurn ↔
      ∃ g p, m.lookupGame gid = some g ∧ g.state = GameStatePlaying ∧
        g.findPlayer pid = some p ∧ p.color ≠ g.currentTurn) ∧
    ((m.MakeMove now gid pid col).1 = .error .InvalidMove ↔
      ∃ g p, m.lookupGame gid = some g ∧ g.state = GameStatePlaying ∧
        g.findPlayer pid = some p ∧ p.color = g.currentTurn ∧
        (g.MakeMove col p.color now).1 = none) ∧
    (∀ e, (m.MakeMove now gid pid col).1 = .error e → (m.MakeMove now gid pid col).2 = m) := by
  rcases hlook : m.lookupGame gid with _ | g
  · have hres : m.MakeMove now gid pid col = (.error .GameNotFound, m) := by
      unfold Manager.MakeMove
      rw [hlook]
    rw [hres]
    simp [hlook]
  · by_cases hst : g.state = GameStatePlaying
    · rcases hfp : g.findPlayer pid with _ | p
      · have hres : m.MakeMove now gid pid col = (.error .PlayerNotInGame, m) := by
          unfold Manager.MakeMove
          rw [hlook]
          dsimp only
          rw [if_neg (by simp [hst]), hfp]
        obtain ⟨hid1, hid2⟩ := (findPlayer_none_iff g pid).mp hfp
        rw [hres]
        simp [hlook, hst, hfp, hid1, hid2]
      · have hnone : ¬ (g.players.1.id ≠ pid ∧ g.players.2.id ≠ pid) := by
          intro hids
          rw [(findPlayer_none_iff g pid).mpr hids] at hfp
          cases hfp
        by_cases hturn : p.color = g.currentTurn
        · rcases hmv : g.MakeMove col p.color now with ⟨mvopt, g1⟩
          cases mvopt with
          | none =>
            have hres : m.MakeMove now gid pid col = (.error .InvalidMove, m) := by
              unfold Manager.MakeMove
              rw [hlook]
              dsimp only
              rw [if_neg (by simp [hst]), hfp]
              dsimp only
              rw [if_neg (by simp [hturn]), hmv]
            have hmv2 : g.MakeMove col g.currentTurn now = (none, g1) := by
              rw [← hturn]
              exact hmv
            rw [hres]
            simp [hlook, hst, hfp, hturn, hmv2, hnone]
          | some mv =>
            have hres1 : (m.MakeMove now gid pid col).1 = .ok { mv with playerID := pid } := by
              unfold Manager.MakeMove
              rw [hlook]
              dsimp only
              rw [if_neg (by simp [hst]), hfp]
              dsimp only
              rw [if_neg (by simp [hturn]), hmv]
            have hmv2 : g.MakeMove col g.currentTurn now = (some mv, g1) := by
              rw [← hturn]
              exact hmv
            refine ⟨?_, ?_, ?_, ?_, ?_, ?_⟩
            · rw [hres1]
              simp [hlook]
            · rw [hres1]
              simp [hlook, hst]
            · rw [hres1]
              simp [hlook, hst, hnone]
            · rw [hres1]
              simp [hlook, hfp, hturn]
            · rw [hres1]
              simp [hlook, hfp, hturn, hmv2]
            · intro e he
              rw [hres1] at he
              simp at he
        · have hres : m.MakeMove now gid pid col = (.error .NotPlayerTurn, m) := by
            unfold Manager.MakeMove
            rw [hlook]
            dsimp only
            rw [if_neg (by simp [hst]), hfp]
            dsimp only
            rw [if_pos hturn]
          rw [hres]
          simp [hlook, hst, hfp, hturn, hnone]
    · have hres : m.MakeMove now gid pid col = (.error .GameNotActive, m) := by
        unfold Manager.MakeMove
        rw [hlook]
        dsimp only
        rw [if_pos hst]
      rw [hres]
      simp [hlook, hst]

/-- The demo manager holding the fresh demo game under id 10. -/
def demoManager : Manager := ⟨[(10, demoGame)]⟩

/-- Witness for C2 at a concrete manager and inputs. -/
theorem managerMakeMove_error_contract_witness :
    (demoManager.MakeMove 0 99 1 3).1 = .error .GameNotFound ↔
      demoManager.lookupGame 99 = none :=
  (managerMakeMove_error_contract demoManager 0 99 1 3).1

/-- C4: after every successful MakeMove on a Playing session: a board
winner finishes the session with that winner and a finish timestamp and
the turn is not flipped; a full board with no winner finishes it as a
draw; otherwise the session stays Playing and the turn flips to the
other color, so the next mover must differ from this mover. -/
theorem managerMakeMove_success_contract
    (m : Manager) (now : ℤ) (gid pid : ℕ) (col : ℤ) (g : Game) (mv : Move) (m' : Manager)
    (hlook : m.lookupGame gid = some g)
    (hres : m.MakeMove now gid pid col = (.ok mv, m')) :
    g.state = GameStatePlaying ∧ mv.color = g.currentTurn ∧
    ∃ g', m'.lookupGame gid = some g' ∧
      (∀ w, g'.CheckWinner = some w →
        g'.state = GameStateFinished ∧ g'.winner = some w ∧
        g'.finishedAt = some now ∧ g'.currentTurn = g.currentTurn) ∧
      (g'.CheckWinner = none → g'.IsBoardFull = true →
        g'.state = GameStateFinished ∧ g'.winner = g.winner ∧
        g'.finishedAt = some now) ∧
      (g'.CheckWinner = none → g'.IsBoardFull = false →
        g'.state = GameStatePlaying ∧
        g'.currentTurn = (if g.currentTurn = PlayerRed then PlayerYellow else PlayerRed) ∧
        g'.currentTurn ≠ mv.color ∧
        g'.winner = g.winner ∧ g'.finishedAt = g.finishedAt) := by
  unfold Manager.MakeMove at hres
  rw [hlook] at hres
  dsimp only at hres
  by_cases hst : g.state = GameStatePlaying
  · rw [if_neg (by simp [hst])] at hres
    rcases hfp : g.findPlayer pid with _ | p
    · rw [hfp] at hres
      exact absurd (congrArg Prod.fst hres) (by simp)
    · rw [hfp] at hres
      dsimp only at hres
      by_cases hturn : p.color = g.currentTurn
      · rw [if_neg (by simp [hturn])] at hres
        by_cases hv : g.IsValidMove col = true
        · obtain ⟨r, hr0, hr6, hcell, habove, hEq⟩ := makeMove_success g col p.color now hv
          rw [hEq] at hres
          dsimp only at hres
          injection hres with h1 h2
          injection h1 with h1
          subst h1
          subst h2
          refine ⟨hst, hturn, ?_⟩
          rcases hw : ({ g with
              board := setCell g.board r col (p.color + 1),
              lastMove := some { playerID := pid, column := col, row := r,
                                 color := p.color, timestamp := now } } : Game).CheckWinner
            with _ | w
          · dsimp only
            by_cases hfull : ({ g with
                board := setCell g.board r col (p.color + 1),
                lastMove := some { playerID := pid, column := col, row := r,
                                   color := p.color, timestamp := now } } : Game).IsBoardFull = true
            · rw [if_pos hfull]
              simp only [Game.CheckWinner, Game.IsBoardFull] at hw hfull
              refine ⟨_, lookupGame_update_self m gid _ (by rw [hlook]; rfl), ?_, ?_, ?_⟩
              · intro w hw'
                simp only [Game.CheckWinner] at hw'
                rw [hw] at hw'
                cases hw'
              · intro _ _
                exact ⟨rfl, rfl, rfl⟩
              · intro _ hfull'
                simp only [Game.IsBoardFull] at hfull'
                rw [hfull] at hfull'
                cases hfull'
            · rw [if_neg hfull]
              simp only [Game.CheckWinner, Game.IsBoardFull] at hw hfull
              by_cases hcr : g.currentTurn = PlayerRed
              · rw [if_pos hcr]
                refine ⟨_, lookupGame_update_self m gid _ (by rw [hlook]; rfl), ?_, ?_, ?_⟩
                · intro w hw'
                  simp only [Game.CheckWinner] at hw'
                  rw [hw] at hw'
                  cases hw'
                · intro _ hfull'
                  simp only [Game.IsBoardFull] at hfull'
                  exact absurd hfull' hfull
                · intro _ _
                  refine ⟨hst, by rw [if_pos hcr], ?_, rfl, rfl⟩
                  show PlayerYellow ≠ p.color
                  rw [hturn, hcr]
                  norm_num [PlayerYellow, PlayerRed]
              · rw [if_neg hcr]
                refine ⟨_, lookupGame_update_self m gid _ (by rw [hlook]; rfl), ?_, ?_, ?_⟩
                · intro w hw'
                  simp only [Game.CheckWinner] at hw'
                  rw [hw] at hw'
                  cases hw'
                · intro _ hfull'
                  simp only [Game.IsBoardFull] at hfull'
                  exact absurd hfull' hfull
                · intro _ _
                  refine ⟨hst, by rw [if_neg hcr], ?_, rfl, rfl⟩
                  show PlayerRed ≠ p.color
                  rw [hturn]
                  exact fun hcc => hcr hcc.symm
          · dsimp only
            simp only [Game.CheckWinner] at hw
            refine ⟨_, lookupGame_update_self m gid _ (by rw [hlook]; rfl), ?_, ?_, ?_⟩
            · intro w' hw'
              simp only [Game.CheckWinner] at hw'
              rw [hw] at hw'
              injection hw' with hww
              subst hww
              exact ⟨rfl, rfl, rfl, rfl⟩
            · intro hnone _
              simp only [Game.CheckWinner] at hnone
              rw [hw] at hnone
              cases hnone
            · intro hnone _
              simp only [Game.CheckWinner] at hnone
              rw [hw] at hnone
              cases hnone
        · rw [makeMove_fail g col p.color now hv] at hres
          exact absurd (congrArg Prod.fst hres) (by simp)
      · rw [if_pos hturn] at hres
        exact absurd (congrArg Prod.fst hres) (by simp)
  · rw [if_pos hst] at hres
    exact absurd (congrArg Prod.fst hres) (by simp)


/-- The move red plays in the C4 witness. -/
def demoMove : Move :=
  { playerID := 1, column := 3, row := 5, color := PlayerRed, timestamp := 1 }

/-- The manager state after the C4 witness move. -/
def demoManagerAfter : Manager := (demoManager.MakeMove 1 10 1 3).2

/-- Witness for C4: red plays column 3 in the fresh game. -/
theorem managerMakeMove_success_contract_witness :
    demoManager.lookupGame 10 = some demoGame ∧
    demoManager.MakeMove 1 10 1 3 = (.ok demoMove, demoManagerAfter) ∧
    demoGame.state = GameStatePlaying :=
  ⟨rfl, rfl,
    (managerMakeMove_success_contract demoManager 1 10 1 3 demoGame demoMove
      demoManagerAfter rfl rfl).1⟩

/-! ## Disconnect sweep (claims C1, C9) -/

lemma lookupGame_cleanup (m : Manager) (now : ℤ) (gid : ℕ) :
    (m.cleanupDisconnectedPlayers now).1.lookupGame gid =
      (m.lookupGame gid).map (fun g => (cleanupGame now gid g).1) := by
  rcases m with ⟨l⟩
  unfold Manager.cleanupDisconnectedPlayers Manager.lookupGame
  dsimp only
  induction l with
  | nil => rfl
  | cons hd tl ih =>
    by_cases hb : hd.1 = gid
    · have e : (hd.1 == gid) = true := by simp [hb]
      simp only [List.map_cons]
      rw [List.find?_cons_of_pos _ (by exact e), List.find?_cons_of_pos _ (by exact e)]
      subst hb
      rfl
    · have e : (hd.1 == gid) = false := by simp [hb]
      simp only [List.map_cons]
      rw [List.find?_cons_of_neg _ (by simp [e]), List.find?_cons_of_neg _ (by simp [e])]
      exact ih

/-- C9: when a Playing session has a player disconnected beyond the
grace period and the other player is also not connected, the sweep still
marks the session Finished with a finish timestamp but leaves the winner
unset (no forfeit winner for a double disconnection). -/
theorem cleanup_double_disconnect (m : Manager) (now : ℤ) (gid : ℕ) (g : Game)
    (hlook : m.lookupGame gid = some g)
    (hst : g.state = GameStatePlaying)
    (htrig : (¬ g.players.1.connected = true ∧ now - g.players.1.lastSeen > 30) ∨
             (¬ g.players.2.connected = true ∧ now - g.players.2.lastSeen > 30))
    (hnc1 : g.players.1.connected = false) (hnc2 : g.players.2.connected = false) :
    ∃ g', (m.cleanupDisconnectedPlayers now).1.lookupGame gid = some g' ∧
      g'.state = GameStateFinished ∧ g'.finishedAt = some now ∧
      g'.winner = g.winner ∧ (g.winner = none → g'.winner = none) := by
  rw [lookupGame_cleanup, hlook]
  refine ⟨(cleanupGame now gid g).1, rfl, ?_⟩
  unfold cleanupGame
  rw [if_neg (by simp [hst])]
  have hfind : (g.playersList.find?
      (fun p => decide (¬ p.connected = true ∧ now - p.lastSeen > 30))).isSome = true := by
    unfold Game.playersList
    rcases htrig with h | h
    · rw [List.find?_cons_of_pos _ (by simpa using h)]
      rfl
    · by_cases h1 : (¬ g.players.1.connected = true ∧ now - g.players.1.lastSeen > 30)
      · rw [List.find?_cons_of_pos _ (by simpa using h1)]
        rfl
      · rw [List.find?_cons_of_neg _ (by simpa using h1),
          List.find?_cons_of_pos _ (by simpa using h)]
        rfl
  rcases hf : g.playersList.find?
      (fun p => decide (¬ p.connected = true ∧ now - p.lastSeen > 30)) with _ | pt
  · rw [hf] at hfind
    cases hfind
  · rw [hf]
    dsimp only
    have hwc : g.playersList.find? (fun p => p.connected) = none := by
      unfold Game.playersList
      rw [List.find?_cons_of_neg _ (by simp [hnc1]),
        List.find?_cons_of_neg _ (by simp [hnc2])]
      rfl
    rw [hwc]
    exact ⟨rfl, rfl, rfl, fun h => h⟩


def dcRed : Player := { demoRed with connected := false, lastSeen := 0 }

def dcGame : Game := { demoGame with id := 20, players := (dcRed, demoYellow) }

def dcManager : Manager := ⟨[(20, dcGame)]⟩

/-- C1 evaluation at the failing input: red has been disconnected for 31s
(grace 30s) while yellow stays connected; the sweep finishes the game,
records yellow as winner with a finish timestamp, yet the broadcast
game_end payload carries `Winner: nil`. -/
theorem cleanup_broadcast_winner_bug :
    ((dcManager.cleanupDisconnectedPlayers 31).1.lookupGame 20).map
        (fun g' => (g'.state, g'.winner, g'.finishedAt)) =
      some (GameStateFinished, some PlayerYellow, some (31 : ℤ)) ∧
    ((dcManager.cleanupDisconnectedPlayers 31).2.map (fun pl => pl.winner)) = [none] :=
  ⟨rfl, rfl⟩

def dcYellow : Player := { demoYellow with connected := false, lastSeen := 5 }

def ddGame : Game := { demoGame with id := 30, players := (dcRed, dcYellow) }

def ddManager : Manager := ⟨[(30, ddGame)]⟩

/-- Witness for C9: both players disconnected, red beyond the grace. -/
theorem cleanup_double_disconnect_witness :
    ddManager.lookupGame 30 = some ddGame ∧
    ddGame.state = GameStatePlaying ∧
    (¬ ddGame.players.1.connected = true ∧ (31 : ℤ) - ddGame.players.1.lastSeen > 30) ∧
    ddGame.players.1.connected = false ∧ ddGame.players.2.connected = false ∧
    ∃ g', (ddManager.cleanupDisconnectedPlayers 31).1.lookupGame 30 = some g' ∧
      g'.state = GameStateFinished ∧ g'.finishedAt = some (31 : ℤ) ∧
      g'.winner = ddGame.winner ∧ (ddGame.winner = none → g'.winner = none) :=
  ⟨rfl, rfl, by decide, rfl, rfl,
    cleanup_double_disconnect ddManager 31 30 ddGame rfl rfl (Or.inl (by decide)) rfl rfl⟩


/-! ## Operation sequences and invariants (claim C6) -/

/-- The operations the invariant claim ranges over: MakeMove requests and
disconnect-sweep runs. -/
inductive Op where
  | move (now : ℤ) (gid pid : ℕ) (col : ℤ)
  | sweep (now : ℤ)

/-- One operation against the manager. -/
def Manager.step (m : Manager) : Op → Manager
  | .move now gid pid col => (m.MakeMove now gid pid col).2
  | .sweep now => (m.cleanupDisconnectedPlayers now).1

/-- A sequence of operations. -/
def Manager.run (m : Manager) (ops : List Op) : Manager :=
  ops.foldl Manager.step m

lemma lookupGame_update_other (m : Manager) (gid gid0 : ℕ) (g2 : Game)
    (h : gid0 ≠ gid) :
    (m.updateGame gid g2).lookupGame gid0 = m.lookupGame gid0 := by
  rcases m with ⟨l⟩
  unfold Manager.lookupGame Manager.updateGame
  dsimp only
  induction l with
  | nil => rfl
  | cons hd tl ih =>
    by_cases hb : hd.1 = gid
    · have e : (hd.1 == gid) = true := by simp [hb]
      have e0 : (hd.1 == gid0) = false := by simp [hb]; omega
      simp only [List.map_cons]
      rw [if_pos e]
      rw [List.find?_cons_of_neg _ (by simpa using e0),
        List.find?_cons_of_neg _ (by simpa using e0)]
      exact ih
    · have e : (hd.1 == gid) = false := by simp [hb]
      simp only [List.map_cons]
      rw [if_neg (by simp [e])]
      by_cases hb0 : hd.1 = gid0
      · have e0 : (hd.1 == gid0) = true := by simp [hb0]
        rw [List.find?_cons_of_pos _ (by exact e0),
          List.find?_cons_of_pos _ (by exact e0)]
      · have e0 : (hd.1 == gid0) = false := by simp [hb0]
        rw [List.find?_cons_of_neg _ (by simp [e0]),
          List.find?_cons_of_neg _ (by simp [e0])]
        exact ih

lemma setCell_preserve (b : Board) (row col v : ℤ)
    (hempty : boardCell b row col = 0) :
    ∀ (r : Fin 6) (c : Fin 7), b r c ≠ 0 → setCell b row col v r c = b r c := by
  intro r c hne
  unfold setCell
  by_cases h : ((r.val : ℤ) = row ∧ (c.val : ℤ) = col)
  · exfalso
    apply hne
    obtain ⟨h1, h2⟩ := h
    unfold boardCell at hempty
    rw [dif_pos (by omega)] at hempty
    have hr : (⟨row.toNat, by omega⟩ : Fin 6) = r := by
      apply Fin.ext
      show row.toNat = r.val
      omega
    have hc : (⟨col.toNat, by omega⟩ : Fin 7) = c := by
      apply Fin.ext
      show col.toNat = c.val
      omega
    rw [hr, hc] at hempty
    exact hempty
  · rw [if_neg h]


lemma managerMakeMove_snd_cases (m : Manager) (now : ℤ) (gid pid : ℕ) (col : ℤ) :
    (m.MakeMove now gid pid col).2 = m ∨
    ∃ g r v g2, m.lookupGame gid = some g ∧ g.state = GameStatePlaying ∧
      boardCell g.board r col = 0 ∧ 0 ≤ r ∧ r < 6 ∧
      g2.board = setCell g.board r col v ∧
      (m.MakeMove now gid pid col).2 = m.updateGame gid g2 := by
  unfold Manager.MakeMove
  rcases hlook : m.lookupGame gid with _ | g
  · exact Or.inl rfl
  · dsimp only
    by_cases hst : g.state = GameStatePlaying
    · rw [if_neg (by simp [hst])]
      rcases hfp : g.findPlayer pid with _ | p
      · exact Or.inl rfl
      · dsimp only
        by_cases hturn : p.color = g.currentTurn
        · rw [if_neg (by simp [hturn])]
          by_cases hv : g.IsValidMove col = true
          · obtain ⟨r, hr0, hr6, hcell, habove, hEq⟩ := makeMove_success g col p.color now hv
            rw [hEq]
            dsimp only
            right
            rcases hw : ({ g with
                board := setCell g.board r col (p.color + 1),
                lastMove := some { playerID := pid, column := col, row := r,
                                   color := p.color, timestamp := now } } : Game).CheckWinner
              with _ | w
            · dsimp only
              by_cases hfull : ({ g with
                  board := setCell g.board r col (p.color + 1),
                  lastMove := some { playerID := pid, column := col, row := r,
                                     color := p.color, timestamp := now } } : Game).IsBoardFull
                    = true
              · rw [if_pos hfull]
                exact ⟨g, r, p.color + 1, _, rfl, hst, hcell, hr0, hr6, rfl, rfl⟩
              · rw [if_neg hfull]
                by_cases hcr : g.currentTurn = PlayerRed
                · rw [if_pos hcr]
                  exact ⟨g, r, p.color + 1, _, rfl, hst, hcell, hr0, hr6, rfl, rfl⟩
                · rw [if_neg hcr]
                  exact ⟨g, r, p.color + 1, _, rfl, hst, hcell, hr0, hr6, rfl, rfl⟩
            · dsimp only
              exact ⟨g, r, p.color + 1, _, rfl, hst, hcell, hr0, hr6, rfl, rfl⟩
          · rw [makeMove_fail g col p.color now hv]
            exact Or.inl rfl
        · rw [if_pos hturn]
          exact Or.inl rfl
    · rw [if_pos hst]
      exact Or.inl rfl

lemma cleanupGame_invariant (now : ℤ) (gid : ℕ) (g : Game) :
    ((cleanupGame now gid g).1).board = g.board ∧
    (g.state = GameStateFinished → (cleanupGame now gid g).1 = g) := by
  unfold cleanupGame
  by_cases hst : g.state = GameStatePlaying
  · rw [if_neg (by simp [hst])]
    rcases hf : g.playersList.find?
        (fun p => decide (¬ p.connected = true ∧ now - p.lastSeen > 30)) with _ | pt
    · rw [hf]
      exact ⟨rfl, fun _ => rfl⟩
    · rw [hf]
      refine ⟨rfl, fun hfin => ?_⟩
      rw [hst] at hfin
      exact absurd hfin (by norm_num [GameStatePlaying, GameStateFinished])
  · rw [if_pos (by simp [hst])]
    exact ⟨rfl, fun _ => rfl⟩

lemma step_preserves (m : Manager) (op : Op) (gid : ℕ) (g : Game)
    (hlook : m.lookupGame gid = some g) :
    ∃ g', (m.step op).lookupGame gid = some g' ∧
      (∀ (r : Fin 6) (c : Fin 7), g.board r c ≠ 0 → g'.board r c = g.board r c) ∧
      (g.state = GameStateFinished → g' = g) := by
  cases op with
  | sweep now =>
    refine ⟨(cleanupGame now gid g).1, ?_, ?_, ?_⟩
    · show (m.cleanupDisconnectedPlayers now).1.lookupGame gid = _
      rw [lookupGame_cleanup, hlook]
      rfl
    · intro r c hne
      rw [(cleanupGame_invariant now gid g).1]
    · exact (cleanupGame_invariant now gid g).2
  | move now gid1 pid col =>
    show ∃ g', ((m.MakeMove now gid1 pid col).2).lookupGame gid = some g' ∧ _
    rcases managerMakeMove_snd_cases m now gid1 pid col with heq |
      ⟨g0, r, v, g2, hlook0, hst0, hcell, hr0, hr6, hb2, heq⟩
    · rw [heq]
      exact ⟨g, hlook, fun _ _ _ => rfl, fun _ => rfl⟩
    · rw [heq]
      by_cases hg : gid = gid1
      · subst hg
        rw [hlook] at hlook0
        injection hlook0 with hg0
        subst hg0
        refine ⟨g2, lookupGame_update_self m gid g2 (by rw [hlook]; rfl), ?_, ?_⟩
        · intro r' c' hne
          rw [hb2]
          exact setCell_preserve g.board r col v hcell r' c' hne
        · intro hfin
          rw [hfin] at hst0
          exact absurd hst0 (by norm_num [GameStatePlaying, GameStateFinished])
      · rw [lookupGame_update_other m gid1 gid g2 hg]
        exact ⟨g, hlook, fun _ _ _ => rfl, fun _ => rfl⟩


/-- C6: under any sequence of MakeMove calls and disconnect-sweep runs,
a non-empty board cell is never altered or cleared, and a Finished
session never returns to Playing and keeps its board, winner, and finish
timestamp. -/
theorem session_invariants (ops : List Op) (m : Manager) (gid : ℕ) (g : Game)
    (hlook : m.lookupGame gid = some g) :
    ∃ g', (m.run ops).lookupGame gid = some g' ∧
      (∀ (r : Fin 6) (c : Fin 7), g.board r c ≠ 0 → g'.board r c = g.board r c) ∧
      (g.state = GameStateFinished →
        g'.state = GameStateFinished ∧ g'.state ≠ GameStatePlaying ∧
        g'.board = g.board ∧ g'.winner = g.winner ∧ g'.finishedAt = g.finishedAt) := by
  have main : ∀ ops (m : Manager) (g : Game), m.lookupGame gid = some g →
      ∃ g', (m.run ops).lookupGame gid = some g' ∧
        (∀ (r : Fin 6) (c : Fin 7), g.board r c ≠ 0 → g'.board r c = g.board r c) ∧
        (g.state = GameStateFinished → g' = g) := by
    intro ops
    induction ops with
    | nil => exact fun m g h => ⟨g, h, fun _ _ _ => rfl, fun _ => rfl⟩
    | cons op rest ih =>
      intro m g h
      obtain ⟨g1, h1, hb1, hf1⟩ := step_preserves m op gid g h
      obtain ⟨g2, h2, hb2, hf2⟩ := ih (m.step op) g1 h1
      refine ⟨g2, h2, ?_, ?_⟩
      · intro r c hne
        rw [hb2 r c (by rw [hb1 r c hne]; exact hne), hb1 r c hne]
      · intro hfin
        have e1 : g1 = g := hf1 hfin
        rw [e1] at hf2
        exact hf2 hfin
  obtain ⟨g', h', hb, hf⟩ := main ops m g hlook
  refine ⟨g', h', hb, fun hfin => ?_⟩
  rw [hf hfin]
  refine ⟨hfin, ?_, rfl, rfl, rfl⟩
  rw [hfin]
  norm_num [GameStatePlaying, GameStateFinished]

/-- Witness for C6 at a concrete manager and op sequence. -/
theorem session_invariants_witness :
    demoManager.lookupGame 10 = some demoGame ∧
    ∃ g', (demoManager.run [.move 1 10 1 3, .sweep 40, .move 2 10 2 2]).lookupGame 10 =
        some g' ∧
      (∀ (r : Fin 6) (c : Fin 7), demoGame.board r c ≠ 0 → g'.board r c = demoGame.board r c) ∧
      (demoGame.state = GameStateFinished →
        g'.state = GameStateFinished ∧ g'.state ≠ GameStatePlaying ∧
        g'.board = demoGame.board ∧ g'.winner = demoGame.winner ∧
        g'.finishedAt = demoGame.finishedAt) :=
  ⟨rfl, session_invariants [.move 1 10 1 3, .sweep 40, .move 2 10 2 2] demoManager 10
    demoGame rfl⟩


/-! ## Matchmaking pairing order (claim C8) -/

def stdPrefs : MatchPreferences := { allowBots := true, skillLevel := 5, maxWaitTime := 10 }

def qA : QueueEntry := { playerID := 1, username := "A", joinedAt := 0, preferences := stdPrefs }
def qB : QueueEntry := { playerID := 2, username := "B", joinedAt := 10, preferences := stdPrefs }
def qC : QueueEntry := { playerID := 3, username := "C", joinedAt := 20, preferences := stdPrefs }

/-- A possible Go map iteration order of the three waiting entries. -/
def demoQueue : Queue := [qB, qC, qA]

/-- C8 counterexample: all three entries are mutually compatible and A is
the oldest, yet the pass pairs B with C — not the pair with the earliest
join timestamps. -/
theorem processMatches_not_fifo :
    (processMatches demoQueue).1.head? = some (qB, qC) ∧
    areCompatible qA qB = true ∧ areCompatible qA qC = true ∧ areCompatible qB qC = true ∧
    qA.joinedAt < qB.joinedAt ∧ qB.joinedAt < qC.joinedAt := by
  decide

/-- C8 amended: the pass pairs by iteration order, not by joinedAt — when
the first entry of the snapshot has a compatible candidate, the first
pair created is that entry with its first compatible candidate in
iteration order. -/
theorem processMatches_first_pair (e : QueueEntry) (rest : List QueueEntry) (c : QueueEntry)
    (hc : GetCompatibleMatch (e :: rest) e = some c) :
    (processMatches (e :: rest)).1.head? = some (e, c) := by
  unfold processMatches
  rw [processMatchesAux]
  rw [List.find?_cons_of_pos _ (by simp)]
  rw [if_pos (show (some e).isSome = true from rfl), hc]
  dsimp only
  rcases h : processMatchesAux rest
      (removeEntry (removeEntry (e :: rest) e.playerID) c.playerID) with ⟨ms, qf⟩
  rfl

/-- Witness for the amended C8 theorem at the demo queue. -/
theorem processMatches_first_pair_witness :
    GetCompatibleMatch (qB :: [qC, qA]) qB = some qC ∧
    (processMatches (qB :: [qC, qA])).1.head? = some (qB, qC) :=
  ⟨by decide, processMatches_first_pair qB [qC, qA] qC (by decide)⟩


end C4

